import Mathlib

/-!
Verification of the LMS (last-man-standing) elimination pool application
(`lms_automation/app.py`, `lms_automation/models.py`).

The development shallowly embeds the relevant parts of the program:
  * the data model (`Player`, `Round`, `Fixture`, `Pick`, `SendQueue`) as Lean
    structures, with the database content carried in a `GameState` record;
  * the outcome evaluator (`normalize_team`, `fixture_decision`,
    `pick_outcome_for_fixture`) as pure functions;
  * the two pick-submission request handlers (`pick_with_token` POST body and
    `submit_pick` POST body) as state transformers returning an outcome;
  * the delivery-queue endpoints (`api_queue_next`, `api_queue_mark`) and the
    circuit breaker (`_consecutive_whatsapp_failures`);
  * the round-processing handler (`admin_process_round`);
  * the reset handlers (`admin_reset_game`, `admin_new_game`);
  * the signed pick-link token codec (`make_pick_token`, `parse_pick_token`),
    including concrete SHA-1 / HMAC-SHA1 / urlsafe-base64 implementations
    mirroring the `itsdangerous.URLSafeSerializer` pipeline the code uses.

Machine integers do not occur (Python integers are unbounded); 32-bit
arithmetic inside SHA-1 is made explicit with `% 2 ^ 32`.
-/

namespace LMS

/-- Database row of model `Player` (models.py): identity, optional WhatsApp
number, status string (active or eliminated) and the unreachable flag. -/
structure Player where
  id : Nat
  name : String
  whatsapp_number : Option String
  status : String
  unreachable : Bool
deriving DecidableEq

/-- Database row of model `Round` (models.py): id, round number and status
string (open, completed). Dates are omitted; no claim mentions them. -/
structure Round where
  id : Nat
  round_number : Nat
  status : String
deriving DecidableEq

/-- Database row of model `Fixture` (models.py): optional owning round,
external event id, team names, optional scores and a status string. -/
structure Fixture where
  round_id : Option Nat
  event_id : String
  home_team : String
  away_team : String
  home_score : Option Int
  away_score : Option Int
  status : String
deriving DecidableEq

/-- Database row of model `Pick` (models.py): owner, round, chosen team,
judgement (`is_winner` null until judged) and elimination marker. The
timestamp column is omitted; no claim mentions it. -/
structure Pick where
  player_id : Nat
  round_id : Nat
  team_picked : String
  is_winner : Option Bool
  is_eliminated : Bool
deriving DecidableEq

/-- Database row of model `SendQueue` (models.py): a queued notification job.
`updated_at` is modelled as a Nat tick so that ordering by update time is
expressible. -/
structure SendQueueItem where
  id : Nat
  player_id : Option Nat
  number : String
  message : String
  status : String
  attempts : Nat
  last_error : Option String
  updated_at : Nat
deriving DecidableEq

/-- The relational store: one list per table. The database is the sole
synchronization point of the program, so a request handler is a function on
this state. -/
structure GameState where
  players : List Player
  rounds : List Round
  fixtures : List Fixture
  picks : List Pick
  send_queue : List SendQueueItem
deriving DecidableEq

/-- Drops surrounding whitespace from a character list, as Python
`str.strip()` does. -/
def trimChars (cs : List Char) : List Char :=
  ((cs.dropWhile Char.isWhitespace).reverse.dropWhile Char.isWhitespace).reverse

/-- Embeds `normalize_team` (app.py line 192): strip surrounding whitespace
and lowercase, i.e. `(name or '').strip().lower()`. The `name or ''` guard is
vacuous here because every use site passes a non-null column. Implemented
over the character list (ASCII semantics, which is what team names use). -/
def normalize_team (name : String) : String :=
  String.mk ((trimChars name.data).map Char.toLower)

/-- Embeds `fixture_decision` (app.py lines 195-209) on an actual fixture row:
`none` unless the status is one of the recognized final codes and both scores
are present, otherwise compare the scores. The Python `if not fix` guard
corresponds to the `Option.bind` at call sites that may pass no fixture. -/
def fixture_decision (fix : Fixture) : Option String :=
  if fix.status = "completed" ∨ fix.status = "FT" ∨ fix.status = "AET" ∨ fix.status = "PEN" then
    match fix.home_score, fix.away_score with
    | some hs, some as_ =>
        if hs > as_ then some "HOME"
        else if as_ > hs then some "AWAY"
        else some "DRAW"
    | _, _ => none
  else none

/-- Embeds `pick_outcome_for_fixture` (app.py lines 211-223): PENDING while
the fixture is undecided, WIN when the decided side's normalized name equals
the pick's normalized team, LOSE on a draw or any other decided case. -/
def pick_outcome_for_fixture (pick : Pick) (fix : Fixture) : String :=
  match fixture_decision fix with
  | none => "PENDING"
  | some result =>
    let team := normalize_team pick.team_picked
    if result = "HOME" ∧ team = normalize_team fix.home_team then "WIN"
    else if result = "AWAY" ∧ team = normalize_team fix.away_team then "WIN"
    else "LOSE"

/-- The decided side of a decision matches a pick's team: the claim's notion
of "the decided side's team name, case/whitespace-normalized, equals the
pick's normalized team". A DRAW has no decided side. -/
def decidedSideMatches (d : String) (fix : Fixture) (pick : Pick) : Prop :=
  (d = "HOME" ∧ normalize_team pick.team_picked = normalize_team fix.home_team) ∨
  (d = "AWAY" ∧ normalize_team pick.team_picked = normalize_team fix.away_team)

/-- Looks up a `Player` row by primary key (`Player.query.get`). -/
def findPlayer (s : GameState) (pid : Nat) : Option Player :=
  s.players.find? (fun p => p.id == pid)

/-- Looks up a `Round` row by primary key (`Round.query.get`). -/
def findRound (s : GameState) (rid : Nat) : Option Round :=
  s.rounds.find? (fun r => r.id == rid)

/-- Outcome of a pick-submission POST, one constructor per terminating branch
of the two handlers. -/
inductive PickResult where
  | playerNotFound
  | roundNotFound
  | roundNotOpen
  | noTeamSelected
  | noOpenRound
  | alreadyEliminated
  | duplicatePick (team : String)
  | teamAlreadyUsed
  | success
deriving DecidableEq

/-- The row inserted on a successful submission: `is_winner` null. -/
def newPick (pid rid : Nat) (team : String) : Pick :=
  { player_id := pid, round_id := rid, team_picked := team,
    is_winner := none, is_eliminated := false }

/-- Embeds the POST branch of `pick_with_token` (app.py lines 388-426) after
the token has decoded to `(player_id, round_id)`: 404 lookups, round-open
check, team-present check, eliminated check, duplicate-pick check, then the
global no-repeat check by plain string membership (`team_picked in
prior_teams`, line 420 — no normalization), then insert. -/
def pick_with_token_post (s : GameState) (player_id round_id : Nat)
    (team_picked : Option String) : PickResult × GameState :=
  match findPlayer s player_id with
  | none => (.playerNotFound, s)
  | some player =>
    match findRound s round_id with
    | none => (.roundNotFound, s)
    | some this_round =>
      if this_round.status ≠ "open" then (.roundNotOpen, s)
      else
        match team_picked with
        | none => (.noTeamSelected, s)
        | some team =>
          if team = "" then (.noTeamSelected, s)
          else if player.status = "eliminated" then (.alreadyEliminated, s)
          else
            match s.picks.find?
                (fun p => p.player_id == player.id && p.round_id == this_round.id) with
            | some existing => (.duplicatePick existing.team_picked, s)
            | none =>
              let prior_teams := (s.picks.filter
                (fun p => p.player_id == player.id && p.round_id != this_round.id)).map
                  Pick.team_picked
              if team ∈ prior_teams then (.teamAlreadyUsed, s)
              else (.success,
                { s with picks := s.picks ++ [newPick player.id this_round.id team] })

/-- Embeds the POST branch of `submit_pick` (app.py lines 444-483): player
lookup, the first open round, team-present check, eliminated check,
open-round check, duplicate-pick check, then insert. This route has no
cross-round no-repeat check. -/
def submit_pick_post (s : GameState) (player_id : Nat)
    (team_picked : Option String) : PickResult × GameState :=
  match findPlayer s player_id with
  | none => (.playerNotFound, s)
  | some player =>
    let current_round := s.rounds.find? (fun r => r.status == "open")
    match team_picked with
    | none => (.noTeamSelected, s)
    | some team =>
      if team = "" then (.noTeamSelected, s)
      else if player.status = "eliminated" then (.alreadyEliminated, s)
      else
        match current_round with
        | none => (.noOpenRound, s)
        | some current =>
          match s.picks.find?
              (fun p => p.player_id == player.id && p.round_id == current.id) with
          | some existing => (.duplicatePick existing.team_picked, s)
          | none => (.success,
              { s with picks := s.picks ++ [newPick player.id current.id team] })

/-- The spec's Invariant 2: no participant holds two picks whose
`team_picked` agree after case/whitespace normalization. -/
def noRepeatNormalized (s : GameState) : Prop :=
  List.Pairwise (fun a b => ¬(a.player_id = b.player_id ∧
    normalize_team a.team_picked = normalize_team b.team_picked)) s.picks

/-- The spec's Invariant 1: at most one pick per (participant, round). -/
def uniquePicks (s : GameState) : Prop :=
  List.Pairwise (fun a b => ¬(a.player_id = b.player_id ∧
    a.round_id = b.round_id)) s.picks

/-- A state with one active player who picked lowercase "arsenal" in the
completed round 1, and an open round 2. -/
def c1_state : GameState :=
  { players := [{ id := 1, name := "Alice", whatsapp_number := none,
                  status := "active", unreachable := false }],
    rounds := [{ id := 1, round_number := 1, status := "completed" },
               { id := 2, round_number := 2, status := "open" }],
    fixtures := [],
    picks := [{ player_id := 1, round_id := 1, team_picked := "arsenal",
                is_winner := some true, is_eliminated := false }],
    send_queue := [] }

/-- A pick submission operation, for reasoning about sequences of
submissions through either route. -/
inductive SubmitOp where
  | viaToken (pid rid : Nat) (team : Option String)
  | direct (pid : Nat) (team : Option String)

/-- The state transformation of one submission operation. -/
def applySubmit (s : GameState) : SubmitOp → GameState
  | .viaToken pid rid team => (pick_with_token_post s pid rid team).2
  | .direct pid team => (submit_pick_post s pid team).2

/-- Embeds `admin_reset_game` (app.py lines 795-809): deletes all Pick,
Fixture and Round rows and sets every player's status to active. It touches
neither the `unreachable` flag nor the SendQueue table. -/
def admin_reset_game (s : GameState) : GameState :=
  { s with
    picks := []
    fixtures := []
    rounds := []
    players := s.players.map (fun p => { p with status := "active" }) }

/-- Embeds `admin_new_game` (app.py lines 1064-1080): additionally deletes
all SendQueue rows and clears the `unreachable` flag. -/
def admin_new_game (s : GameState) : GameState :=
  { s with
    picks := []
    fixtures := []
    rounds := []
    send_queue := []
    players := s.players.map
      (fun p => { p with status := "active", unreachable := false }) }

/-- Insertion step of a sort by `updated_at` descending. -/
def insertDesc (q : SendQueueItem) : List SendQueueItem → List SendQueueItem
  | [] => [q]
  | x :: xs => if q.updated_at ≤ x.updated_at then x :: insertDesc q xs
               else q :: x :: xs

/-- Sorts queue rows by `updated_at` descending, the `order_by(
SendQueue.updated_at.desc())` of the circuit-breaker query. -/
def sortByUpdatedDesc : List SendQueueItem → List SendQueueItem
  | [] => []
  | x :: xs => insertDesc x (sortByUpdatedDesc xs)

/-- Embeds `_consecutive_whatsapp_failures` (app.py lines 182-185): count the
rows of the query `filter_by(player_id=..., status='failed')` ordered by
update time descending, limited to `window`. Note the filter keeps only
failed rows; `sent` rows are not scanned at all. -/
def consecutive_whatsapp_failures (s : GameState) (player_id : Nat)
    (window : Nat) : Nat :=
  ((sortByUpdatedDesc (s.send_queue.filter
    (fun q => q.player_id == some player_id && q.status == "failed"))).take
      window).length

/-- Modelled from the spec (§4.5), for comparison with the code's
`_consecutive_whatsapp_failures`: scan the recipient's most recent `window`
jobs ordered by update time descending and count from the most recent
backward until the first job that is not `failed` (in particular until the
first `sent`), or until `window` is exhausted. -/
def spec_consecutive_failures (s : GameState) (player_id : Nat)
    (window : Nat) : Nat :=
  (((sortByUpdatedDesc (s.send_queue.filter
    (fun q => q.player_id == some player_id))).take window).takeWhile
      (fun q => q.status == "failed")).length

/-- One queue row for the circuit-breaker scenarios. -/
def mkJob (id : Nat) (pid : Option Nat) (status : String) (updated : Nat) :
    SendQueueItem :=
  { id := id, player_id := pid, number := "447000000001", message := "msg",
    status := status, attempts := 1, last_error := none, updated_at := updated }

/-- A recipient whose most recent job is `sent`, preceded by five failed
jobs. -/
def c2_state : GameState :=
  { players := [{ id := 1, name := "Alice", whatsapp_number := some "07000000001",
                  status := "active", unreachable := false }],
    rounds := [], fixtures := [], picks := [],
    send_queue := [mkJob 6 (some 1) "sent" 6, mkJob 5 (some 1) "failed" 5,
      mkJob 4 (some 1) "failed" 4, mkJob 3 (some 1) "failed" 3,
      mkJob 2 (some 1) "failed" 2, mkJob 1 (some 1) "failed" 1] }

/-- Removes every occurrence of the substring "Bearer " from a character
list, the effect of Python `auth_header.replace('Bearer ', '')` scanning
left to right over non-overlapping occurrences. -/
def stripBearerAll : List Char → List Char
  | 'B' :: 'e' :: 'a' :: 'r' :: 'e' :: 'r' :: ' ' :: rest => stripBearerAll rest
  | c :: rest => c :: stripBearerAll rest
  | [] => []

/-- Embeds `validate_worker_token` (app.py lines 964-970): the Authorization
header must start with "Bearer " and the remainder (after removing every
"Bearer " occurrence, as the Python `str.replace` does) must equal the
configured `WORKER_API_TOKEN`; with no token configured (`None`) the
comparison is always false. -/
def validate_worker_token (auth : String) (worker_token : Option String) : Bool :=
  if ("Bearer ".data).isPrefixOf auth.data then
    match worker_token with
    | some t => String.mk (stripBearerAll auth.data) == t
    | none => false
  else false

/-- Writes the reported status into the matched queue row (`item.status =
status`) and, when a non-empty error was supplied, stores it in
`last_error` (`if error: item.last_error = str(error)`). Row ids are primary
keys, so updating every row with the matching id updates the one row. The
`onupdate` refresh of `updated_at` is omitted: no claim observes it. -/
def markJobState (s : GameState) (jobId : Nat) (status : String)
    (error : Option String) : GameState :=
  { s with send_queue := s.send_queue.map (fun q =>
      if q.id == jobId then
        { q with
          status := status
          last_error := match error with
            | some e => if e = "" then q.last_error else some e
            | none => q.last_error }
      else q) }

/-- Embeds `api_queue_mark` (app.py lines 997-1025): 401 without a valid
bearer token, 404 when no row has the given id (no state change), otherwise
store the given status verbatim (there is no validation of the status
value), store a non-empty error in `last_error`, and when the reported
status is "failed" and the row has a (truthy) player id, flag that player
unreachable once `_consecutive_whatsapp_failures` (computed on the session
state that already contains this failure) reaches 5. Returns the HTTP
status code and the new state. -/
def api_queue_mark (s : GameState) (worker_token : Option String)
    (auth : String) (job_id : Option Nat) (status : String)
    (error : Option String) : Nat × GameState :=
  if validate_worker_token auth worker_token = false then (401, s)
  else
    match job_id.bind (fun j => s.send_queue.find? (fun q => q.id == j)) with
    | none => (404, s)
    | some item =>
      let s1 := markJobState s item.id status error
      let s2 :=
        if status = "failed" then
          match item.player_id with
          | some ppid =>
            if ppid ≠ 0 then
              if 5 ≤ consecutive_whatsapp_failures s1 ppid 10 then
                { s1 with players := s1.players.map (fun pl =>
                    if pl.id == ppid then { pl with unreachable := true } else pl) }
              else s1
            else s1
          | none => s1
        else s1
      (200, s2)

/-- A queue with one pending job owned by player 1, with a valid worker
token "tok". -/
def c6_state : GameState :=
  { players := [{ id := 1, name := "Alice", whatsapp_number := some "07000000001",
                  status := "active", unreachable := false }],
    rounds := [], fixtures := [], picks := [],
    send_queue := [mkJob 7 (some 1) "pending" 1] }

/-- A recipient with four failed jobs and one still-pending job: reporting
that job as failed is the fifth failure. -/
def c2w_state : GameState :=
  { players := [{ id := 1, name := "Alice", whatsapp_number := some "07000000001",
                  status := "active", unreachable := false }],
    rounds := [], fixtures := [], picks := [],
    send_queue := [mkJob 9 (some 1) "pending" 9, mkJob 4 (some 1) "failed" 4,
      mkJob 3 (some 1) "failed" 3, mkJob 2 (some 1) "failed" 2,
      mkJob 1 (some 1) "failed" 1] }

/-- The read phase of `api_queue_next` (app.py line 981): the plain SELECT
`filter_by(status='pending').limit(limit)`, a snapshot of up to `limit`
pending rows with no locking. -/
def api_queue_next_read (s : GameState) (limit : Nat) : List SendQueueItem :=
  (s.send_queue.filter (fun q => q.status == "pending")).take limit

/-- The write phase of `api_queue_next` (app.py lines 984-994): each
snapshotted row is set to `in_progress` with `attempts` incremented from the
snapshot value, then the session commits. -/
def api_queue_next_write (s : GameState) (snapshot : List SendQueueItem) :
    GameState :=
  { s with send_queue := s.send_queue.map (fun q =>
      match snapshot.find? (fun p => p.id == q.id) with
      | some p => { p with status := "in_progress", attempts := p.attempts + 1 }
      | none => q) }

/-- Embeds `api_queue_next` (app.py lines 972-995) run in isolation: 401
without a valid token, otherwise read-then-write and return the claimed job
ids (the JSON rows are keyed by these ids). -/
def api_queue_next (s : GameState) (worker_token : Option String)
    (auth : String) (limit : Nat) : Nat × GameState × List Nat :=
  if validate_worker_token auth worker_token = false then (401, s, [])
  else
    let pending := api_queue_next_read s limit
    (200, api_queue_next_write s pending, pending.map SendQueueItem.id)

/-- Two workers polling concurrently under read-committed isolation, both
SELECTs executing before either UPDATE commits: each snapshot is taken on
the same initial state, then both writes apply in order. Returns both
claimed id lists and the final state. The handler has no `FOR UPDATE`/`SKIP
LOCKED` or status recheck, so this schedule is permitted by the code. -/
def two_consumer_interleaving (s : GameState) (limit : Nat) :
    List Nat × List Nat × GameState :=
  let r1 := api_queue_next_read s limit
  let r2 := api_queue_next_read s limit
  let s1 := api_queue_next_write s r1
  let s2 := api_queue_next_write s1 r2
  (r1.map SendQueueItem.id, r2.map SendQueueItem.id, s2)

/-- Five pending jobs, ids 1 through 5. -/
def c5_state : GameState :=
  { players := [], rounds := [], fixtures := [], picks := [],
    send_queue := [mkJob 1 none "pending" 1, mkJob 2 none "pending" 2,
      mkJob 3 none "pending" 3, mkJob 4 none "pending" 4,
      mkJob 5 none "pending" 5] }

/-- The fixtures assigned to a round, `rnd.fixtures` of the relationship. -/
def round_fixtures (s : GameState) (rid : Nat) : List Fixture :=
  s.fixtures.filter (fun f => f.round_id == some rid)

/-- Embeds the `fixtures_by_team` dictionary of `admin_process_round`
(app.py lines 646-647): home-team keys first, then away-team keys override
them; within each comprehension a later fixture overrides an earlier one,
so lookup prefers the last fixture keyed by away team, then the last keyed
by home team. -/
def lookup_fixture_by_team (fxs : List Fixture) (t : String) : Option Fixture :=
  match fxs.reverse.find? (fun f => normalize_team f.away_team == t) with
  | some f => some f
  | none => fxs.reverse.find? (fun f => normalize_team f.home_team == t)

/-- A fixture that blocks processing (app.py lines 650-652): undecided and
not postponed/cancelled. -/
def blocking_undecided (f : Fixture) : Bool :=
  fixture_decision f == none &&
  !(f.status == "PST" || f.status == "P" || f.status == "postponed" ||
    f.status == "cancelled")

/-- The per-pick body of the judging loop (app.py lines 659-679): skip
already-judged picks, skip picks with no matching fixture, set `is_winner`
on WIN, set `is_winner`/`is_eliminated` on LOSE, leave PENDING untouched. -/
def judge_pick (fxs : List Fixture) (rid : Nat) (p : Pick) : Pick :=
  if p.round_id == rid && p.is_winner == none then
    match lookup_fixture_by_team fxs (normalize_team p.team_picked) with
    | none => p
    | some fix =>
      let outcome := pick_outcome_for_fixture p fix
      if outcome = "WIN" then { p with is_winner := some true }
      else if outcome = "LOSE" then
        { p with is_winner := some false, is_eliminated := true }
      else p
  else p

/-- A player is eliminated by this pass exactly when one of their
still-unjudged picks in the round loses (app.py lines 671-676). -/
def pick_loses (s : GameState) (rid : Nat) (pid : Nat) : Bool :=
  s.picks.any (fun p =>
    p.round_id == rid && p.is_winner == none && p.player_id == pid &&
    (match lookup_fixture_by_team (round_fixtures s rid)
        (normalize_team p.team_picked) with
     | none => false
     | some fix => pick_outcome_for_fixture p fix == "LOSE"))

/-- Result of `admin_process_round`: 404, the undecided-fixtures redirect
(with the reported count), or the processed state. -/
inductive ProcessResult where
  | roundNotFound
  | undecidedFixtures (n : Nat)
  | processed (s : GameState)
deriving DecidableEq

/-- Embeds `admin_process_round` (app.py lines 643-685): look the round up,
refuse while an assigned fixture is undecided and not abandoned, otherwise
judge every still-unjudged pick of the round, eliminate the losers (already
eliminated players stay eliminated) and set the round status to completed. -/
def admin_process_round (s : GameState) (rid : Nat) : ProcessResult :=
  match findRound s rid with
  | none => .roundNotFound
  | some _ =>
    let fxs := round_fixtures s rid
    let und := fxs.filter blocking_undecided
    if und.isEmpty then
      .processed
        { s with
          picks := s.picks.map (judge_pick fxs rid)
          players := s.players.map (fun pl =>
            if pick_loses s rid pl.id then { pl with status := "eliminated" }
            else pl)
          rounds := s.rounds.map (fun r =>
            if r.id == rid then { r with status := "completed" } else r) }
    else .undecidedFixtures und.length

/-- Round 1 with fixture Arsenal 2-0 Chelsea (final): Alice picked Arsenal,
Bob picked Chelsea. -/
def c4_state : GameState :=
  { players := [{ id := 1, name := "Alice", whatsapp_number := none,
                  status := "active", unreachable := false },
                { id := 2, name := "Bob", whatsapp_number := none,
                  status := "active", unreachable := false }],
    rounds := [{ id := 1, round_number := 1, status := "open" }],
    fixtures := [{ round_id := some 1, event_id := "E1",
                   home_team := "Arsenal", away_team := "Chelsea",
                   home_score := some 2, away_score := some 0,
                   status := "FT" }],
    picks := [{ player_id := 1, round_id := 1, team_picked := "Arsenal",
                is_winner := none, is_eliminated := false },
              { player_id := 2, round_id := 1, team_picked := "Chelsea",
                is_winner := none, is_eliminated := false }],
    send_queue := [] }

/-- The state after processing round 1 of `c4_state`: Alice wins, Bob loses
and is eliminated, the round is completed. -/
def c4_state2 : GameState :=
  { players := [{ id := 1, name := "Alice", whatsapp_number := none,
                  status := "active", unreachable := false },
                { id := 2, name := "Bob", whatsapp_number := none,
                  status := "eliminated", unreachable := false }],
    rounds := [{ id := 1, round_number := 1, status := "completed" }],
    fixtures := [{ round_id := some 1, event_id := "E1",
                   home_team := "Arsenal", away_team := "Chelsea",
                   home_score := some 2, away_score := some 0,
                   status := "FT" }],
    picks := [{ player_id := 1, round_id := 1, team_picked := "Arsenal",
                is_winner := some true, is_eliminated := false },
              { player_id := 2, round_id := 1, team_picked := "Chelsea",
                is_winner := some false, is_eliminated := true }],
    send_queue := [] }

/-!
The pick-link token codec. `make_pick_token`/`parse_pick_token` (app.py
lines 48-59) delegate to `itsdangerous.URLSafeSerializer(SECRET_KEY,
salt='pick-link')`. That pipeline is embedded concretely: compact JSON
payload, urlsafe base64 without padding, HMAC-SHA1 over the base64 payload
text with the django-concat derived key SHA1(salt ++ "signer" ++ secret),
token = payloadB64 ++ "." ++ sigB64; decoding splits at the last dot,
base64-decodes the signature (Python's base64 discards the trailing bits of
the final character, reproduced here), compares it with the recomputed MAC,
and only then decodes and parses the payload. The zlib-compression branch of
the serializer is omitted: it is not taken for id-sized payloads. Payload
shapes the serializer itself never emits surface as Python exceptions
outside the BadSignature handler; they are modelled as `none`. The
default secret is `please_change_me` (app.py line 40). Every definition was
cross-checked byte-for-byte against the stdlib HMAC/SHA1/base64/json
pipeline that itsdangerous wraps.
-/

def rotl (n x : Nat) : Nat := ((x <<< n) ||| (x >>> (32 - n))) % 4294967296

def toWords : List Nat → List Nat
  | a :: b :: c :: d :: rest => (((a * 256 + b) * 256 + c) * 256 + d) :: toWords rest
  | _ => []

def w80 (ws : List Nat) : List Nat :=
  (List.range 64).foldl (fun acc _ =>
    acc ++ [rotl 1 ((acc.getD (acc.length - 3) 0) ^^^ (acc.getD (acc.length - 8) 0) ^^^
      (acc.getD (acc.length - 14) 0) ^^^ (acc.getD (acc.length - 16) 0))]) ws

def sha1Round (st : Nat × Nat × Nat × Nat × Nat) (iw : Nat × Nat) :
    Nat × Nat × Nat × Nat × Nat :=
  let (i, w) := iw
  let (a, b, c, d, e) := st
  let f :=
    if i < 20 then (b &&& c) ||| ((b ^^^ 4294967295) &&& d)
    else if i < 40 then b ^^^ c ^^^ d
    else if i < 60 then (b &&& c) ||| (b &&& d) ||| (c &&& d)
    else b ^^^ c ^^^ d
  let k :=
    if i < 20 then 1518500249
    else if i < 40 then 1859775393
    else if i < 60 then 2400959708
    else 3395469782
  let temp := (rotl 5 a + f + e + k + w) % 4294967296
  (temp, a, rotl 30 b, c, d)

def processBlock (h : Nat × Nat × Nat × Nat × Nat) (block : List Nat) :
    Nat × Nat × Nat × Nat × Nat :=
  let (h0, h1, h2, h3, h4) := h
  let ws := w80 (toWords block)
  let (a, b, c, d, e) := ((List.range 80).zip ws).foldl sha1Round (h0, h1, h2, h3, h4)
  ((h0 + a) % 4294967296, (h1 + b) % 4294967296, (h2 + c) % 4294967296,
   (h3 + d) % 4294967296, (h4 + e) % 4294967296)

def be4 (n : Nat) : List Nat :=
  [(n >>> 24) % 256, (n >>> 16) % 256, (n >>> 8) % 256, n % 256]

def be8 (n : Nat) : List Nat :=
  [(n >>> 56) % 256, (n >>> 48) % 256, (n >>> 40) % 256, (n >>> 32) % 256,
   (n >>> 24) % 256, (n >>> 16) % 256, (n >>> 8) % 256, n % 256]

def sha1pad (msg : List Nat) : List Nat :=
  msg ++ (128 :: List.replicate ((119 - msg.length % 64) % 64) 0) ++ be8 (msg.length * 8)

def chunk64Go : Nat → List Nat → List (List Nat)
  | 0, _ => []
  | _, [] => []
  | fuel + 1, l => l.take 64 :: chunk64Go fuel (l.drop 64)

def sha1digest (h : Nat × Nat × Nat × Nat × Nat) : List Nat :=
  be4 h.1 ++ be4 h.2.1 ++ be4 h.2.2.1 ++ be4 h.2.2.2.1 ++ be4 h.2.2.2.2

def sha1 (msg : List Nat) : List Nat :=
  sha1digest ((chunk64Go (sha1pad msg).length (sha1pad msg)).foldl processBlock
    (1732584193, 4023233417, 2562383102, 271733878, 3285377520))

def hmacSha1 (key msg : List Nat) : List Nat :=
  let key1 := if 64 < key.length then sha1 key else key
  let key2 := key1 ++ List.replicate (64 - key1.length) 0
  sha1 ((key2.map (fun b => b ^^^ 92)) ++ sha1 ((key2.map (fun b => b ^^^ 54)) ++ msg))

def strBytes (s : String) : List Nat := s.data.map Char.toNat

def deriveKey (secret : List Nat) : List Nat :=
  sha1 (strBytes "pick-link" ++ strBytes "signer" ++ secret)

def b64chr (v : Nat) : Char :=
  if v < 26 then Char.ofNat (65 + v)
  else if v < 52 then Char.ofNat (97 + (v - 26))
  else if v < 62 then Char.ofNat (48 + (v - 52))
  else if v = 62 then '-'
  else '_'

def b64val (c : Char) : Option Nat :=
  let n := c.toNat
  if 65 ≤ n ∧ n ≤ 90 then some (n - 65)
  else if 97 ≤ n ∧ n ≤ 122 then some (n - 97 + 26)
  else if 48 ≤ n ∧ n ≤ 57 then some (n - 48 + 52)
  else if n = 45 then some 62
  else if n = 95 then some 63
  else none

def b64e : List Nat → List Char
  | [] => []
  | [b0] => [b64chr (b0 / 4), b64chr (b0 % 4 * 16)]
  | [b0, b1] => [b64chr (b0 / 4), b64chr (b0 % 4 * 16 + b1 / 16), b64chr (b1 % 16 * 4)]
  | b0 :: b1 :: b2 :: rest =>
    b64chr (b0 / 4) :: b64chr (b0 % 4 * 16 + b1 / 16) ::
      b64chr (b1 % 16 * 4 + b2 / 64) :: b64chr (b2 % 64) :: b64e rest

def b64d : List Char → Option (List Nat)
  | [] => some []
  | [c0, c1] =>
    match b64val c0, b64val c1 with
    | some v0, some v1 => some [v0 * 4 + v1 / 16]
    | _, _ => none
  | [c0, c1, c2] =>
    match b64val c0, b64val c1, b64val c2 with
    | some v0, some v1, some v2 =>
      some [v0 * 4 + v1 / 16, v1 % 16 * 16 + v2 / 4]
    | _, _, _ => none
  | c0 :: c1 :: c2 :: c3 :: rest =>
    match b64val c0, b64val c1, b64val c2, b64val c3, b64d rest with
    | some v0, some v1, some v2, some v3, some tail =>
      some ((v0 * 4 + v1 / 16) :: (v1 % 16 * 16 + v2 / 4) ::
        (v2 % 4 * 64 + v3) :: tail)
    | _, _, _, _, _ => none
  | [_] => none

def digitsLE : Nat → Nat → List Nat
  | 0, _ => []
  | fuel + 1, n => if n = 0 then [] else n % 10 :: digitsLE fuel (n / 10)

def natDigitsBytes (n : Nat) : List Nat :=
  if n = 0 then [48] else ((digitsLE n n).reverse.map (fun d => d + 48))

def jsonPayloadBytes (p r : Nat) : List Nat :=
  [123, 34, 112, 34, 58] ++ natDigitsBytes p ++ [44, 34, 114, 34, 58] ++
    natDigitsBytes r ++ [125]

def isDigitByte (b : Nat) : Bool := decide (48 ≤ b ∧ b ≤ 57)

def parseNatBytes (bs : List Nat) : Option Nat :=
  if bs = [] then none
  else if bs.all isDigitByte then
    some (Nat.ofDigits 10 ((bs.map (fun b => b - 48)).reverse))
  else none

def parsePayload (bs : List Nat) : Option (Nat × Nat) :=
  match bs with
  | 123 :: 34 :: 112 :: 34 :: 58 :: rest =>
    match parseNatBytes (rest.takeWhile isDigitByte), rest.dropWhile isDigitByte with
    | some p, 44 :: 34 :: 114 :: 34 :: 58 :: rest2 =>
      match parseNatBytes (rest2.takeWhile isDigitByte), rest2.dropWhile isDigitByte with
      | some r, [125] => some (p, r)
      | _, _ => none
    | _, _ => none
  | _ => none

def splitAtLastDot (cs : List Char) : Option (List Char × List Char) :=
  let rev := cs.reverse
  let after := rev.takeWhile (fun c => c != '.')
  match rev.dropWhile (fun c => c != '.') with
  | [] => none
  | _ :: before => some (before.reverse, after.reverse)

def make_pick_token (secret : List Nat) (p r : Nat) : String :=
  let payload := b64e (jsonPayloadBytes p r)
  let sig := hmacSha1 (deriveKey secret) (payload.map Char.toNat)
  String.mk (payload ++ '.' :: b64e sig)

def parse_pick_token (secret : List Nat) (token : String) : Option (Nat × Nat) :=
  match splitAtLastDot token.data with
  | none => none
  | some (payload, sigPart) =>
    match b64d sigPart with
    | none => none
    | some sigBytes =>
      if sigBytes = hmacSha1 (deriveKey secret) (payload.map Char.toNat) then
        match b64d payload with
        | none => none
        | some payloadBytes => parsePayload payloadBytes
      else none

def default_secret : List Nat := strBytes "please_change_me"

set_option maxRecDepth 10000

/-- A decision, when present, is HOME, AWAY or DRAW. -/
theorem fixture_decision_cases (fix : Fixture) :
    fixture_decision fix = none ∨ fixture_decision fix = some "HOME" ∨
    fixture_decision fix = some "AWAY" ∨ fixture_decision fix = some "DRAW" := by
  unfold fixture_decision
  split
  · rcases h1 : fix.home_score with _ | hs <;> rcases h2 : fix.away_score with _ | as_ <;>
      simp only [h1, h2] <;> try simp
    split_ifs <;> simp <;> omega
  · simp

/-- Claim C3: `judge(pick, fixture)` (that is `pick_outcome_for_fixture`) is
PENDING exactly when `decide(fixture)` (that is `fixture_decision`) is
undecided; otherwise it is WIN exactly when the decided side's normalized
team name equals the pick's normalized team; a DRAW decision yields LOSE;
any other decided non-WIN case yields LOSE; and the function is pure, so
identical inputs yield identical outputs. -/
theorem C3_outcome_evaluator (pick : Pick) (fix : Fixture) :
    (pick_outcome_for_fixture pick fix = "PENDING" ↔ fixture_decision fix = none)
  ∧ (pick_outcome_for_fixture pick fix = "WIN" ↔
      ∃ d, fixture_decision fix = some d ∧ decidedSideMatches d fix pick)
  ∧ (fixture_decision fix = some "DRAW" → pick_outcome_for_fixture pick fix = "LOSE")
  ∧ (∀ d, fixture_decision fix = some d → pick_outcome_for_fixture pick fix ≠ "WIN" →
      pick_outcome_for_fixture pick fix = "LOSE")
  ∧ (∀ pick2 fix2, pick = pick2 → fix = fix2 →
      pick_outcome_for_fixture pick fix = pick_outcome_for_fixture pick2 fix2) := by
  rcases fixture_decision_cases fix with h | h | h | h <;>
    simp only [pick_outcome_for_fixture, h, decidedSideMatches]
  · simp [h]
  · by_cases hteam : normalize_team pick.team_picked = normalize_team fix.home_team <;>
      simp [h, hteam]
  · by_cases hteam : normalize_team pick.team_picked = normalize_team fix.away_team <;>
      simp [h, hteam]
  · simp [h]

/-- Witness for C3 at a concrete drawn fixture: the DRAW hypothesis is
discharged by `rfl` and the outcome evaluates to LOSE. -/
theorem C3_outcome_evaluator_witness :
    pick_outcome_for_fixture
      { player_id := 1, round_id := 1, team_picked := "Arsenal",
        is_winner := none, is_eliminated := false }
      { round_id := some 1, event_id := "E1", home_team := "Arsenal",
        away_team := "Chelsea", home_score := some 1, away_score := some 1,
        status := "FT" } = "LOSE" :=
  (C3_outcome_evaluator _ _).2.2.1 rfl

/-- A successful `find?` on the player table returns the row with the looked
up id. -/
theorem findPlayer_id {s : GameState} {pid : Nat} {player : Player}
    (h : findPlayer s pid = some player) : player.id = pid := by
  have := List.find?_some h
  simpa using this

/-- Either `pick_with_token_post` leaves the state unchanged, or every guard
passed and it appended exactly one new pick. -/
theorem pick_with_token_post_cases (s : GameState) (pid rid : Nat)
    (team : Option String) :
    (pick_with_token_post s pid rid team).2 = s ∨
    (∃ player rnd t,
      findPlayer s pid = some player ∧ findRound s rid = some rnd ∧
      rnd.status = "open" ∧ team = some t ∧ t ≠ "" ∧
      player.status ≠ "eliminated" ∧
      s.picks.find? (fun p => p.player_id == player.id && p.round_id == rnd.id) = none ∧
      pick_with_token_post s pid rid team =
        (.success, { s with picks := s.picks ++ [newPick player.id rnd.id t] })) := by
  unfold pick_with_token_post
  rcases hp : findPlayer s pid with _ | player
  · simp
  · rcases hr : findRound s rid with _ | rnd
    · simp
    · by_cases hopen : rnd.status = "open"
      · rcases team with _ | t
        · simp [hopen]
        · by_cases ht : t = ""
          · simp [hopen, ht]
          · by_cases helim : player.status = "eliminated"
            · simp [hopen, ht, helim]
            · rcases hdup : s.picks.find?
                  (fun p => p.player_id == player.id && p.round_id == rnd.id) with _ | ex
              · by_cases hmem : t ∈ (s.picks.filter
                    (fun p => p.player_id == player.id && p.round_id != rnd.id)).map
                      Pick.team_picked
                · simp [hopen, ht, helim, hdup, hmem]
                · right
                  refine ⟨player, rnd, t, rfl, rfl, hopen, rfl, ht, helim, hdup, ?_⟩
                  simp [hopen, ht, helim, hdup, hmem]
              · simp [hopen, ht, helim, hdup]
      · simp [hopen]

/-- Either `submit_pick_post` leaves the state unchanged, or every guard
passed and it appended exactly one new pick. -/
theorem submit_pick_post_cases (s : GameState) (pid : Nat) (team : Option String) :
    (submit_pick_post s pid team).2 = s ∨
    (∃ player rnd t,
      findPlayer s pid = some player ∧
      s.rounds.find? (fun r => r.status == "open") = some rnd ∧
      team = some t ∧ t ≠ "" ∧ player.status ≠ "eliminated" ∧
      s.picks.find? (fun p => p.player_id == player.id && p.round_id == rnd.id) = none ∧
      submit_pick_post s pid team =
        (.success, { s with picks := s.picks ++ [newPick player.id rnd.id t] })) := by
  unfold submit_pick_post
  rcases hp : findPlayer s pid with _ | player
  · simp
  · rcases team with _ | t
    · simp
    · by_cases ht : t = ""
      · simp [ht]
      · by_cases helim : player.status = "eliminated"
        · simp [ht, helim]
        · rcases hr : s.rounds.find? (fun r => r.status == "open") with _ | rnd
          · simp [ht, helim, hr]
          · rcases hdup : s.picks.find?
                (fun p => p.player_id == player.id && p.round_id == rnd.id) with _ | ex
            · right
              refine ⟨player, rnd, t, rfl, hr, rfl, ht, helim, hdup, ?_⟩
              simp [ht, helim, hr, hdup]
            · simp [ht, helim, hr, hdup]

/-- Claim C1 is false on the code: `pick_with_token` compares team strings
exactly, so submitting "Arsenal" after a prior "arsenal" succeeds and inserts
a second pick whose normalized team equals the prior one, violating the
normalized no-repeat invariant. -/
theorem C1_counterexample :
    (pick_with_token_post c1_state 1 2 (some "Arsenal")).1 = PickResult.success
  ∧ (pick_with_token_post c1_state 1 2 (some "Arsenal")).2.picks.length = 2
  ∧ normalize_team "Arsenal" = normalize_team "arsenal"
  ∧ ¬ noRepeatNormalized (pick_with_token_post c1_state 1 2 (some "Arsenal")).2 := by
  refine ⟨by decide, by decide, by decide, ?_⟩
  unfold noRepeatNormalized
  decide

/-- Membership in the prior-teams list of `pick_with_token_post` is exact
string membership over the player's picks in other rounds. -/
theorem mem_prior_teams_iff (s : GameState) (player : Player) (rnd : Round)
    (t : String) :
    (t ∈ (s.picks.filter
        (fun p => p.player_id == player.id && p.round_id != rnd.id)).map
          Pick.team_picked) ↔
    (∃ p ∈ s.picks, p.player_id = player.id ∧ p.round_id ≠ rnd.id ∧
      p.team_picked = t) := by
  simp only [List.mem_map, List.mem_filter, Bool.and_eq_true, beq_iff_eq,
    bne_iff_ne]
  constructor
  · rintro ⟨p, ⟨hmem, h1, h2⟩, h3⟩
    exact ⟨p, hmem, h1, h2, h3⟩
  · rintro ⟨p, hmem, h1, h2, h3⟩
    exact ⟨p, ⟨hmem, h1, h2⟩, h3⟩

/-- Claim C1 amended: only the `pick_with_token` route enforces a no-repeat
rule, and it compares team strings exactly (case/whitespace-sensitive): it
fails with TeamAlreadyUsed and inserts nothing precisely when the literal
string was picked by this player in another round, and inserts otherwise;
the `submit_pick` route performs no cross-round check and inserts even an
exact repeat. -/
theorem C1_amended (s : GameState) (pid rid : Nat) (t : String)
    (player : Player) (rnd : Round)
    (hp : findPlayer s pid = some player) (hr : findRound s rid = some rnd)
    (hopen : rnd.status = "open") (ht : t ≠ "")
    (hactive : player.status ≠ "eliminated")
    (hdup : s.picks.find?
      (fun p => p.player_id == player.id && p.round_id == rnd.id) = none) :
    ((∃ p ∈ s.picks, p.player_id = player.id ∧ p.round_id ≠ rnd.id ∧
        p.team_picked = t) →
      pick_with_token_post s pid rid (some t) = (.teamAlreadyUsed, s))
  ∧ ((¬ ∃ p ∈ s.picks, p.player_id = player.id ∧ p.round_id ≠ rnd.id ∧
        p.team_picked = t) →
      pick_with_token_post s pid rid (some t) =
        (.success, { s with picks := s.picks ++ [newPick player.id rnd.id t] }))
  ∧ (∀ rnd2, s.rounds.find? (fun r => r.status == "open") = some rnd2 →
      s.picks.find?
        (fun p => p.player_id == player.id && p.round_id == rnd2.id) = none →
      submit_pick_post s pid (some t) =
        (.success, { s with picks := s.picks ++ [newPick player.id rnd2.id t] })) := by
  refine ⟨fun hex => ?_, fun hnex => ?_, fun rnd2 hr2 hdup2 => ?_⟩
  · have hmem := (mem_prior_teams_iff s player rnd t).mpr hex
    unfold pick_with_token_post
    rw [hp, hr]
    simp [hopen, ht, hactive, hdup, hmem]
  · have hmem : ¬ (t ∈ (s.picks.filter
        (fun p => p.player_id == player.id && p.round_id != rnd.id)).map
          Pick.team_picked) :=
      fun hm => hnex ((mem_prior_teams_iff s player rnd t).mp hm)
    unfold pick_with_token_post
    rw [hp, hr]
    simp [hopen, ht, hactive, hdup, hmem]
  · unfold submit_pick_post
    rw [hp, hr2]
    simp [ht, hactive, hdup2]

/-- Witness for C1 amended at the concrete state: the exact string repeat
"arsenal" is rejected with TeamAlreadyUsed and nothing is inserted. -/
theorem C1_amended_witness :
    pick_with_token_post c1_state 1 2 (some "arsenal") =
      (.teamAlreadyUsed, c1_state) :=
  (C1_amended c1_state 1 2 "arsenal"
      { id := 1, name := "Alice", whatsapp_number := none, status := "active",
        unreachable := false }
      { id := 2, round_number := 2, status := "open" }
      (by decide) (by decide) rfl (by decide) (by decide) (by decide)).1
    (by decide)

/-- Claim C8: an eliminated participant never acquires a new pick. Both
submission routes leave the state unchanged for an eliminated player, report
AlreadyEliminated when the remaining request guards hold, and in general any
pick present after a submission either existed before or belongs to a player
who was not eliminated at insertion time. -/
theorem C8_eliminated_never_acquires_pick (s : GameState) (pid rid : Nat)
    (team : Option String) (player : Player)
    (hp : findPlayer s pid = some player)
    (helim : player.status = "eliminated") :
    ((pick_with_token_post s pid rid team).2 = s)
  ∧ ((submit_pick_post s pid team).2 = s)
  ∧ (∀ rnd, findRound s rid = some rnd → rnd.status = "open" →
      ∀ t, team = some t → t ≠ "" →
      (pick_with_token_post s pid rid team).1 = .alreadyEliminated)
  ∧ (∀ t, team = some t → t ≠ "" →
      (submit_pick_post s pid team).1 = .alreadyEliminated)
  ∧ (∀ (s2 : GameState) (pid2 rid2 : Nat) (team2 : Option String),
      (∀ pk ∈ (pick_with_token_post s2 pid2 rid2 team2).2.picks,
        pk ∈ s2.picks ∨
          ∃ pl, findPlayer s2 pk.player_id = some pl ∧ pl.status ≠ "eliminated")
      ∧ (∀ pk ∈ (submit_pick_post s2 pid2 team2).2.picks,
        pk ∈ s2.picks ∨
          ∃ pl, findPlayer s2 pk.player_id = some pl ∧ pl.status ≠ "eliminated")) := by
  refine ⟨?_, ?_, ?_, ?_, ?_⟩
  · rcases pick_with_token_post_cases s pid rid team with h |
      ⟨player2, rnd, t, hp2, _, _, _, _, hact, _, _⟩
    · exact h
    · rw [hp] at hp2
      cases Option.some.inj hp2
      exact absurd helim hact
  · rcases submit_pick_post_cases s pid team with h |
      ⟨player2, rnd, t, hp2, _, _, _, hact, _, _⟩
    · exact h
    · rw [hp] at hp2
      cases Option.some.inj hp2
      exact absurd helim hact
  · intro rnd hrnd hropen t hteq htne
    subst hteq
    unfold pick_with_token_post
    rw [hp, hrnd]
    simp [hropen, htne, helim]
  · intro t hteq htne
    subst hteq
    unfold submit_pick_post
    rw [hp]
    simp [htne, helim]
  · intro s2 pid2 rid2 team2
    constructor
    · intro pk hmem
      rcases pick_with_token_post_cases s2 pid2 rid2 team2 with h |
        ⟨player2, rnd2, t2, hp2, _, _, _, _, hact2, _, heq⟩
      · rw [h] at hmem
        exact Or.inl hmem
      · rw [heq] at hmem
        simp at hmem
        rcases hmem with hmem | rfl
        · exact Or.inl hmem
        · refine Or.inr ⟨player2, ?_, hact2⟩
          have hid := findPlayer_id hp2
          simpa [newPick, hid] using hp2
    · intro pk hmem
      rcases submit_pick_post_cases s2 pid2 team2 with h |
        ⟨player2, rnd2, t2, hp2, _, _, _, hact2, _, heq⟩
      · rw [h] at hmem
        exact Or.inl hmem
      · rw [heq] at hmem
        simp at hmem
        rcases hmem with hmem | rfl
        · exact Or.inl hmem
        · refine Or.inr ⟨player2, ?_, hact2⟩
          have hid := findPlayer_id hp2
          simpa [newPick, hid] using hp2

/-- Witness for C8 at a concrete state with an eliminated player. -/
theorem C8_eliminated_never_acquires_pick_witness :
    (pick_with_token_post
      { players := [{ id := 1, name := "Bob", whatsapp_number := none,
                      status := "eliminated", unreachable := false }],
        rounds := [{ id := 2, round_number := 2, status := "open" }],
        fixtures := [], picks := [], send_queue := [] }
      1 2 (some "Leeds")).1 = .alreadyEliminated :=
  (C8_eliminated_never_acquires_pick _ 1 2 (some "Leeds")
      { id := 1, name := "Bob", whatsapp_number := none,
        status := "eliminated", unreachable := false }
      (by decide) rfl).2.2.1
    { id := 2, round_number := 2, status := "open" }
    (by decide) rfl "Leeds" rfl (by decide)

/-- Appending a pick that no existing row matches on (player, round)
preserves Invariant 1. -/
theorem uniquePicks_insert {s : GameState} {player : Player} {rid : Nat}
    {t : String} (hu : uniquePicks s)
    (hdup : s.picks.find?
      (fun p => p.player_id == player.id && p.round_id == rid) = none) :
    uniquePicks { s with picks := s.picks ++ [newPick player.id rid t] } := by
  unfold uniquePicks at *
  simp only [List.pairwise_append]
  refine ⟨hu, by simp, ?_⟩
  intro a ha b hb
  simp only [List.mem_singleton] at hb
  subst hb
  have hne := List.find?_eq_none.mp hdup a ha
  simp only [Bool.and_eq_true, beq_iff_eq, not_and] at hne
  simp only [newPick, not_and]
  intro h1 h2
  exact hne h1 h2

/-- Every single submission preserves Invariant 1. -/
theorem applySubmit_preserves_unique (s : GameState) (op : SubmitOp)
    (hu : uniquePicks s) : uniquePicks (applySubmit s op) := by
  cases op with
  | viaToken pid rid team =>
    rcases pick_with_token_post_cases s pid rid team with h |
      ⟨player, rnd, t, _, _, _, _, _, _, hdup, heq⟩
    · simp only [applySubmit]
      rw [h]
      exact hu
    · simp only [applySubmit]
      rw [heq]
      exact uniquePicks_insert hu hdup
  | direct pid team =>
    rcases submit_pick_post_cases s pid team with h |
      ⟨player, rnd, t, _, _, _, _, _, hdup, heq⟩
    · simp only [applySubmit]
      rw [h]
      exact hu
    · simp only [applySubmit]
      rw [heq]
      exact uniquePicks_insert hu hdup

/-- Claim C9: at most one pick per (participant, round). When a pick already
exists for the pair, both routes fail with DuplicatePick and change nothing;
and any sequence of submissions through either route preserves Invariant 1. -/
theorem C9_unique_pick_per_round (s : GameState) :
    (∀ pid rid t player rnd existing,
      findPlayer s pid = some player → findRound s rid = some rnd →
      rnd.status = "open" → t ≠ "" → player.status ≠ "eliminated" →
      s.picks.find?
        (fun p => p.player_id == player.id && p.round_id == rnd.id) =
        some existing →
      pick_with_token_post s pid rid (some t) =
        (.duplicatePick existing.team_picked, s))
  ∧ (∀ pid t player rnd existing,
      findPlayer s pid = some player →
      s.rounds.find? (fun r => r.status == "open") = some rnd →
      t ≠ "" → player.status ≠ "eliminated" →
      s.picks.find?
        (fun p => p.player_id == player.id && p.round_id == rnd.id) =
        some existing →
      submit_pick_post s pid (some t) =
        (.duplicatePick existing.team_picked, s))
  ∧ (uniquePicks s → ∀ ops : List SubmitOp,
      uniquePicks (ops.foldl applySubmit s)) := by
  refine ⟨?_, ?_, ?_⟩
  · intro pid rid t player rnd existing hp hr hopen ht hactive hdup
    unfold pick_with_token_post
    rw [hp, hr]
    simp [hopen, ht, hactive, hdup]
  · intro pid t player rnd existing hp hr ht hactive hdup
    unfold submit_pick_post
    rw [hp, hr]
    simp [ht, hactive, hdup]
  · suffices h : ∀ (ops : List SubmitOp) (s2 : GameState), uniquePicks s2 →
        uniquePicks (ops.foldl applySubmit s2) from fun hu ops => h ops s hu
    intro ops
    induction ops with
    | nil => exact fun s2 hu => hu
    | cons op rest ih =>
      intro s2 hu
      exact ih (applySubmit s2 op) (applySubmit_preserves_unique s2 op hu)

/-- Witness for C9 at a concrete state: a second submission for the same
(participant, round) is rejected as a duplicate. -/
theorem C9_unique_pick_per_round_witness :
    pick_with_token_post c1_state 1 1 (some "Leeds") =
      (.duplicatePick "arsenal", c1_state) ∨
    pick_with_token_post
      { c1_state with
        picks := c1_state.picks ++ [newPick 1 2 "Leeds"] } 1 2 (some "Spurs") =
      (.duplicatePick "Leeds",
        { c1_state with picks := c1_state.picks ++ [newPick 1 2 "Leeds"] }) :=
  Or.inr
    ((C9_unique_pick_per_round _).1 1 2 "Spurs"
      { id := 1, name := "Alice", whatsapp_number := none, status := "active",
        unreachable := false }
      { id := 2, round_number := 2, status := "open" }
      (newPick 1 2 "Leeds")
      (by decide) (by decide) rfl (by decide) (by decide) (by decide))

/-- Claim C10: the full game reset deletes every Pick, Fixture and Round and
reactivates every player, while leaving each player's `unreachable` flag and
the whole notification queue unchanged; only `admin_new_game` additionally
clears the flags and deletes the queued jobs. -/
theorem C10_reset_frame (s : GameState) :
    ((admin_reset_game s).picks = [] ∧ (admin_reset_game s).fixtures = [] ∧
      (admin_reset_game s).rounds = [])
  ∧ (∀ p ∈ (admin_reset_game s).players, p.status = "active")
  ∧ ((admin_reset_game s).players.map Player.unreachable =
      s.players.map Player.unreachable)
  ∧ ((admin_reset_game s).players.map Player.id = s.players.map Player.id)
  ∧ ((admin_reset_game s).send_queue = s.send_queue)
  ∧ ((admin_new_game s).send_queue = []
      ∧ ∀ p ∈ (admin_new_game s).players,
          p.unreachable = false ∧ p.status = "active") := by
  refine ⟨⟨rfl, rfl, rfl⟩, ?_, ?_, ?_, rfl, rfl, ?_⟩
  · intro p hp
    simp only [admin_reset_game, List.mem_map] at hp
    obtain ⟨q, _, rfl⟩ := hp
    rfl
  · simp [admin_reset_game, List.map_map]
  · simp [admin_reset_game, List.map_map]
  · intro p hp
    simp only [admin_new_game, List.mem_map] at hp
    obtain ⟨q, _, rfl⟩ := hp
    exact ⟨rfl, rfl⟩

/-- Inserting adds one element to the length. -/
theorem length_insertDesc (q : SendQueueItem) (l : List SendQueueItem) :
    (insertDesc q l).length = l.length + 1 := by
  induction l with
  | nil => rfl
  | cons x xs ih =>
    unfold insertDesc
    split
    · simp [ih]
    · simp

/-- Sorting preserves length. -/
theorem length_sortByUpdatedDesc (l : List SendQueueItem) :
    (sortByUpdatedDesc l).length = l.length := by
  induction l with
  | nil => rfl
  | cons x xs ih => simp [sortByUpdatedDesc, length_insertDesc, ih]

/-- Claim C2 is false on the code: with a `sent` job more recent than the
five failed ones, the claim says the count is 0, but the code's query
filters on `status='failed'` and never sees the `sent` row, returning 5. -/
theorem C2_counterexample :
    consecutive_whatsapp_failures c2_state 1 10 = 5
  ∧ spec_consecutive_failures c2_state 1 10 = 0 := by
  constructor <;> decide

/-- The queue update of `markJobState` rewrites the row found by `find?` in
place: looking the id up afterwards returns the row with the new status and
error. -/
theorem markJob_find (l : List SendQueueItem) (jid : Nat) (status : String)
    (error : Option String) (item : SendQueueItem)
    (h : l.find? (fun q => q.id == jid) = some item) :
    (l.map (fun q =>
      if q.id == jid then
        { q with
          status := status
          last_error := match error with
            | some e => if e = "" then q.last_error else some e
            | none => q.last_error }
      else q)).find? (fun q => q.id == jid) =
    some { item with
      status := status
      last_error := match error with
        | some e => if e = "" then item.last_error else some e
        | none => item.last_error } := by
  induction l with
  | nil => simp at h
  | cons q rest ih =>
    by_cases hq : q.id = jid
    · have h2 : q = item := by simpa [List.find?_cons, hq] using h
      subst h2
      simp [List.find?_cons, hq]
    · have hqf : (q.id == jid) = false := by simp [hq]
      simp only [List.find?_cons, hqf] at h
      simp only [List.map_cons]
      rw [if_neg (by simp [hq])]
      simp only [List.find?_cons, hqf]
      exact ih h

/-- Flagging a player by id rewrites the row found by `findPlayer` in
place. -/
theorem flagPlayer_find (l : List Player) (pid : Nat) (pl : Player)
    (h : l.find? (fun p => p.id == pid) = some pl) :
    (l.map (fun p =>
      if p.id == pid then { p with unreachable := true } else p)).find?
        (fun p => p.id == pid) = some { pl with unreachable := true } := by
  induction l with
  | nil => simp at h
  | cons q rest ih =>
    by_cases hq : q.id = pid
    · have h2 : q = pl := by simpa [List.find?_cons, hq] using h
      subst h2
      simp [List.find?_cons, hq]
    · have hqf : (q.id == pid) = false := by simp [hq]
      simp only [List.find?_cons, hqf] at h
      simp only [List.map_cons]
      rw [if_neg (by simp [hq])]
      simp only [List.find?_cons, hqf]
      exact ih h

/-- In the authorized, job-found case `api_queue_mark` returns 200 and its
queue is the queue written by `markJobState`; the possible circuit-breaker
branch only touches the players table. -/
theorem api_queue_mark_found (s : GameState) (tok : Option String)
    (auth : String) (job_id : Option Nat) (status : String)
    (error : Option String) (hv : validate_worker_token auth tok = true)
    (item : SendQueueItem)
    (hitem : job_id.bind (fun j => s.send_queue.find? (fun q => q.id == j))
      = some item) :
    (api_queue_mark s tok auth job_id status error).1 = 200
  ∧ (api_queue_mark s tok auth job_id status error).2.send_queue =
      (markJobState s item.id status error).send_queue := by
  unfold api_queue_mark
  rw [if_neg (by rw [hv]; exact fun hf => nomatch hf), hitem]
  refine ⟨rfl, ?_⟩
  dsimp only
  split
  · split
    · split
      · split
        · rfl
        · rfl
      · rfl
    · rfl
  · rfl

/-- Claim C6 is false on the code: marking job 7 with the invalid status
"bogus" (neither "sent" nor "failed") is accepted with HTTP 200 — not
rejected with 400 — and the bogus value is stored verbatim in the row. -/
theorem C6_counterexample :
    (api_queue_mark c6_state (some "tok") "Bearer tok" (some 7) "bogus" none).1
      = 200
  ∧ ((api_queue_mark c6_state (some "tok") "Bearer tok" (some 7) "bogus"
      none).2.send_queue.find? (fun q => q.id == 7)).map SendQueueItem.status
      = some "bogus" := by
  constructor <;> decide

/-- Claim C6 amended: `POST /api/queue/mark` returns 401 without a valid
bearer token, 404 with no state change for an unknown job id, and 200
otherwise — for any status string whatsoever, which is stored verbatim
(there is no 400 invalid-status branch); a non-empty error string reported
is stored in the job's `last_error` (in particular on a failure). -/
theorem C6_queue_mark_codes (s : GameState) (tok : Option String)
    (auth : String) (job_id : Option Nat) (status : String)
    (error : Option String) :
    (validate_worker_token auth tok = false →
      api_queue_mark s tok auth job_id status error = (401, s))
  ∧ (validate_worker_token auth tok = true →
      job_id.bind (fun j => s.send_queue.find? (fun q => q.id == j)) = none →
      api_queue_mark s tok auth job_id status error = (404, s))
  ∧ (validate_worker_token auth tok = true →
      ∀ item, job_id.bind (fun j => s.send_queue.find? (fun q => q.id == j))
        = some item →
      (api_queue_mark s tok auth job_id status error).1 = 200
      ∧ ((api_queue_mark s tok auth job_id status error).2.send_queue.find?
          (fun q => q.id == item.id)).map SendQueueItem.status = some status
      ∧ (∀ e, error = some e → e ≠ "" →
          ((api_queue_mark s tok auth job_id status
            error).2.send_queue.find? (fun q => q.id == item.id)).map
              SendQueueItem.last_error = some (some e))) := by
  refine ⟨fun hv => ?_, fun hv hnone => ?_, fun hv item hitem => ?_⟩
  · unfold api_queue_mark
    rw [if_pos hv]
  · unfold api_queue_mark
    rw [if_neg (by rw [hv]; exact fun hf => nomatch hf), hnone]
  · have hfind : s.send_queue.find? (fun q => q.id == item.id) = some item := by
      rcases job_id with _ | j
      · cases hitem
      · simp only [Option.some_bind] at hitem
        have hj : item.id = j := by simpa using List.find?_some hitem
        rw [← hj] at hitem
        exact hitem
    obtain ⟨hcode, hqueue⟩ :=
      api_queue_mark_found s tok auth job_id status error hv item hitem
    have hupd := markJob_find s.send_queue item.id status error item hfind
    refine ⟨hcode, ?_, ?_⟩
    · rw [hqueue]
      unfold markJobState
      dsimp only
      rw [hupd]
      rfl
    · intro e herr hene
      subst herr
      rw [hqueue]
      unfold markJobState
      dsimp only
      rw [hupd]
      simp [hene]

/-- Witness for C6 at the concrete queue: a failed report with a non-empty
error is accepted with 200, stores the status and stores the error. -/
theorem C6_queue_mark_codes_witness :
    (api_queue_mark c6_state (some "tok") "Bearer tok" (some 7) "failed"
      (some "boom")).1 = 200
  ∧ ((api_queue_mark c6_state (some "tok") "Bearer tok" (some 7) "failed"
      (some "boom")).2.send_queue.find? (fun q => q.id == 7)).map
        SendQueueItem.status = some "failed"
  ∧ ((api_queue_mark c6_state (some "tok") "Bearer tok" (some 7) "failed"
      (some "boom")).2.send_queue.find? (fun q => q.id == 7)).map
        SendQueueItem.last_error = some (some "boom") :=
  have h := (C6_queue_mark_codes c6_state (some "tok") "Bearer tok" (some 7)
    "failed" (some "boom")).2.2 (by decide) (mkJob 7 (some 1) "pending" 1)
    (by decide)
  ⟨h.1, h.2.1, h.2.2 "boom" rfl (by decide)⟩

/-- Claim C2 amended: the code's `_consecutive_whatsapp_failures` returns
`min window (total number of the recipient's failed jobs)`; `sent` jobs never
reset the count because the query filters on `status='failed'` before
ordering. A recipient reaching five failed jobs is flagged unreachable when
the fifth failure is reported through `api_queue_mark`. -/
theorem C2_circuit_breaker_amended (s : GameState) (pid window : Nat) :
    consecutive_whatsapp_failures s pid window =
      min window ((s.send_queue.filter
        (fun q => q.player_id == some pid && q.status == "failed")).length)
  ∧ (∀ (tok : String) (auth : String) (jid : Nat) (err : Option String)
       (item : SendQueueItem) (pl : Player),
      validate_worker_token auth (some tok) = true →
      s.send_queue.find? (fun q => q.id == jid) = some item →
      item.player_id = some pid → pid ≠ 0 →
      5 ≤ consecutive_whatsapp_failures
        (markJobState s item.id "failed" err) pid 10 →
      findPlayer s pid = some pl →
      findPlayer (api_queue_mark s (some tok) auth (some jid) "failed" err).2
        pid = some { pl with unreachable := true }) := by
  constructor
  · unfold consecutive_whatsapp_failures
    rw [List.length_take, length_sortByUpdatedDesc]
  · intro tok auth jid err item pl hv hfind hpid hpid0 hcount hfpl
    have hbind : (some jid).bind
        (fun j => s.send_queue.find? (fun q => q.id == j)) = some item := by
      simpa using hfind
    unfold api_queue_mark
    rw [if_neg (by rw [hv]; exact fun hf => nomatch hf), hbind]
    dsimp only
    rw [if_pos (rfl : ("failed" : String) = "failed"), hpid]
    dsimp only
    rw [if_pos hpid0, if_pos hcount]
    unfold findPlayer at hfpl ⊢
    unfold markJobState
    dsimp only
    exact flagPlayer_find s.players pid pl hfpl

/-- Witness for C2 amended: reporting the fifth failure flags Alice
unreachable. -/
theorem C2_circuit_breaker_amended_witness :
    findPlayer (api_queue_mark c2w_state (some "tok") "Bearer tok" (some 9)
      "failed" none).2 1 =
      some { id := 1, name := "Alice", whatsapp_number := some "07000000001",
             status := "active", unreachable := true } :=
  (C2_circuit_breaker_amended c2w_state 1 10).2 "tok" "Bearer tok" 9 none
    (mkJob 9 (some 1) "pending" 9)
    { id := 1, name := "Alice", whatsapp_number := some "07000000001",
      status := "active", unreachable := false }
    (by decide) (by decide) rfl (by decide) (by decide) (by decide)

/-- Claim C5 names the intended contract, and the code violates it: run
serially, two `claim(limit=5)` calls are disjoint (the second returns
nothing), but under the read-committed interleaving in which both workers
SELECT before either commits, both receive all five jobs — overlapping job
sets, because the select-then-mark sequence is not atomic. -/
theorem C5_claim_not_exclusive :
    ((api_queue_next c5_state (some "tok") "Bearer tok" 5).2.2 = [1, 2, 3, 4, 5]
  ∧ (api_queue_next
      (api_queue_next c5_state (some "tok") "Bearer tok" 5).2.1
      (some "tok") "Bearer tok" 5).2.2 = [])
  ∧ ((two_consumer_interleaving c5_state 5).1 = [1, 2, 3, 4, 5]
  ∧ (two_consumer_interleaving c5_state 5).2.1 = [1, 2, 3, 4, 5]
  ∧ 1 ∈ (two_consumer_interleaving c5_state 5).1
  ∧ 1 ∈ (two_consumer_interleaving c5_state 5).2.1) := by
  exact ⟨⟨by decide, by decide⟩, by decide, by decide, by decide, by decide⟩

/-- A map that fixes every element of a list is the identity on it. -/
theorem map_id_of_eq {α : Type} (l : List α) (f : α → α)
    (h : ∀ a ∈ l, f a = a) : l.map f = l := by
  induction l with
  | nil => rfl
  | cons x xs ih =>
    rw [List.map_cons, h x (List.mem_cons_self x xs),
      ih (fun a ha => h a (List.mem_cons_of_mem x ha))]

/-- Mapping a pointwise-idempotent function twice equals mapping it once. -/
theorem map_map_of_idem {α : Type} (l : List α) (f : α → α)
    (h : ∀ a, f (f a) = f a) : (l.map f).map f = l.map f := by
  apply map_id_of_eq
  intro a ha
  rcases List.mem_map.mp ha with ⟨b, _, rfl⟩
  exact h b

/-- Completing a round by id rewrites the row found by `findRound` in
place. -/
theorem completeRound_find (l : List Round) (rid : Nat) (r : Round)
    (h : l.find? (fun x => x.id == rid) = some r) :
    (l.map (fun x =>
      if x.id == rid then { x with status := "completed" } else x)).find?
        (fun x => x.id == rid) = some { r with status := "completed" } := by
  induction l with
  | nil => simp at h
  | cons q rest ih =>
    by_cases hq : q.id = rid
    · have h2 : q = r := by simpa [List.find?_cons, hq] using h
      subst h2
      simp [List.find?_cons, hq]
    · have hqf : (q.id == rid) = false := by simp [hq]
      simp only [List.find?_cons, hqf] at h
      simp only [List.map_cons]
      rw [if_neg (by simp [hq])]
      simp only [List.find?_cons, hqf]
      exact ih h

/-- Exhaustive description of one judging step: either the pick is left
unchanged (guard failed, no fixture matched, or the outcome was PENDING),
or the guard held and the pick was judged WIN or LOSE. -/
theorem judge_pick_cases (fxs : List Fixture) (rid : Nat) (p : Pick) :
    (judge_pick fxs rid p = p ∧
      (¬(p.round_id = rid ∧ p.is_winner = none) ∨
       lookup_fixture_by_team fxs (normalize_team p.team_picked) = none ∨
       (∃ fix, lookup_fixture_by_team fxs (normalize_team p.team_picked) =
          some fix ∧
         pick_outcome_for_fixture p fix ≠ "WIN" ∧
         pick_outcome_for_fixture p fix ≠ "LOSE"))) ∨
    (p.round_id = rid ∧ p.is_winner = none ∧
      ∃ fix, lookup_fixture_by_team fxs (normalize_team p.team_picked) =
        some fix ∧
        ((pick_outcome_for_fixture p fix = "WIN" ∧
          judge_pick fxs rid p = { p with is_winner := some true }) ∨
         (pick_outcome_for_fixture p fix = "LOSE" ∧
          judge_pick fxs rid p =
            { p with is_winner := some false, is_eliminated := true }))) := by
  by_cases hg : (p.round_id == rid && p.is_winner == none) = true
  · obtain ⟨hg1, hg2⟩ : p.round_id = rid ∧ p.is_winner = none := by
      simpa [Bool.and_eq_true] using hg
    rcases hl : lookup_fixture_by_team fxs (normalize_team p.team_picked)
      with _ | fix
    · have h1 : judge_pick fxs rid p = p := by
        unfold judge_pick
        rw [if_pos hg, hl]
      exact Or.inl ⟨h1, Or.inr (Or.inl rfl)⟩
    · by_cases hw : pick_outcome_for_fixture p fix = "WIN"
      · have h1 : judge_pick fxs rid p = { p with is_winner := some true } := by
          unfold judge_pick
          rw [if_pos hg, hl]
          dsimp only
          rw [if_pos hw]
        exact Or.inr ⟨hg1, hg2, fix, rfl, Or.inl ⟨hw, h1⟩⟩
      · by_cases hlz : pick_outcome_for_fixture p fix = "LOSE"
        · have h1 : judge_pick fxs rid p =
              { p with is_winner := some false, is_eliminated := true } := by
            unfold judge_pick
            rw [if_pos hg, hl]
            dsimp only
            rw [if_neg hw, if_pos hlz]
          exact Or.inr ⟨hg1, hg2, fix, rfl, Or.inr ⟨hlz, h1⟩⟩
        · have h1 : judge_pick fxs rid p = p := by
            unfold judge_pick
            rw [if_pos hg, hl]
            dsimp only
            rw [if_neg hw, if_neg hlz]
          exact Or.inl ⟨h1, Or.inr (Or.inr ⟨fix, rfl, hw, hlz⟩)⟩
  · have h1 : judge_pick fxs rid p = p := by
      unfold judge_pick
      rw [if_neg hg]
    refine Or.inl ⟨h1, Or.inl ?_⟩
    rintro ⟨h2, h3⟩
    exact hg (by simp [h2, h3])

/-- Judging is pointwise idempotent: re-judging acts only on picks whose
`is_winner` is still null and never rewrites a judged pick. -/
theorem judge_pick_idem (fxs : List Fixture) (rid : Nat) (p : Pick) :
    judge_pick fxs rid (judge_pick fxs rid p) = judge_pick fxs rid p := by
  rcases judge_pick_cases fxs rid p with ⟨h1, _⟩ | ⟨_, _, fix, _, hcase⟩
  · rw [h1, h1]
  · rcases hcase with ⟨_, h1⟩ | ⟨_, h1⟩ <;>
    · rw [h1]
      unfold judge_pick
      rw [if_neg (by simp)]

/-- A pick still unjudged after a judging pass was left unchanged, and its
team either matches no fixture or its outcome is PENDING. -/
theorem judge_pick_unjudged (fxs : List Fixture) (rid : Nat) (p : Pick)
    (hw : (judge_pick fxs rid p).is_winner = none)
    (hr : (judge_pick fxs rid p).round_id = rid) :
    judge_pick fxs rid p = p ∧
    (lookup_fixture_by_team fxs (normalize_team p.team_picked) = none ∨
     ∃ fix, lookup_fixture_by_team fxs (normalize_team p.team_picked) =
        some fix ∧
       pick_outcome_for_fixture p fix ≠ "WIN" ∧
       pick_outcome_for_fixture p fix ≠ "LOSE") := by
  rcases judge_pick_cases fxs rid p with ⟨h1, hres⟩ | ⟨_, _, fix, _, hcase⟩
  · refine ⟨h1, ?_⟩
    rcases hres with hng | hln | hex
    · exfalso
      rw [h1] at hw hr
      exact hng ⟨hr, hw⟩
    · exact Or.inl hln
    · exact Or.inr hex
  · exfalso
    rcases hcase with ⟨_, h1⟩ | ⟨_, h1⟩ <;> rw [h1] at hw <;> simp at hw

/-- After a judging pass over the round's picks no pick of the round loses:
every still-unjudged pick has no matching fixture or a PENDING outcome. -/
theorem pick_loses_after_judging (s2 : GameState) (rid pid : Nat)
    (base : List Pick)
    (hp : s2.picks = base.map (judge_pick (round_fixtures s2 rid) rid)) :
    pick_loses s2 rid pid = false := by
  unfold pick_loses
  rw [hp, List.any_eq_false]
  intro p2 hp2
  rcases List.mem_map.mp hp2 with ⟨p, _, rfl⟩
  simp only [Bool.and_eq_true, beq_iff_eq]
  rintro ⟨⟨⟨hr, hw⟩, _⟩, hmatch⟩
  obtain ⟨heq, hres⟩ :=
    judge_pick_unjudged (round_fixtures s2 rid) rid p hw hr
  rw [heq] at hmatch
  rcases hres with hln | ⟨fix, hl, _, hnl⟩
  · rw [hln] at hmatch
    cases hmatch
  · rw [hl] at hmatch
    exact hnl (by simpa using hmatch)

/-- Claim C4: `close_round` (`admin_process_round`) is idempotent: a second
run on the state produced by a successful run, with no new fixture data,
succeeds and changes nothing — it skips all judged picks, re-eliminates
nobody, and re-completes the already-completed round. -/
theorem C4_process_round_idempotent (s : GameState) (rid : Nat)
    (s2 : GameState) (h : admin_process_round s rid = .processed s2) :
    admin_process_round s2 rid = .processed s2 := by
  unfold admin_process_round at h
  rcases hfr : findRound s rid with _ | rnd
  · rw [hfr] at h
    simp at h
  · rw [hfr] at h
    dsimp only at h
    by_cases hund : ((round_fixtures s rid).filter blocking_undecided).isEmpty
      = true
    · rw [if_pos hund] at h
      have hs2 := (ProcessResult.processed.inj h).symm
      subst hs2
      unfold admin_process_round
      have hfr2 := completeRound_find s.rounds rid rnd
        (by unfold findRound at hfr; exact hfr)
      rw [show findRound
          { s with
            picks := s.picks.map (judge_pick (round_fixtures s rid) rid)
            players := s.players.map (fun pl =>
              if pick_loses s rid pl.id then { pl with status := "eliminated" }
              else pl)
            rounds := s.rounds.map (fun r =>
              if r.id == rid then { r with status := "completed" } else r) }
          rid = some { rnd with status := "completed" } from hfr2]
      dsimp only
      have hrf : round_fixtures
          { s with
            picks := s.picks.map (judge_pick (round_fixtures s rid) rid)
            players := s.players.map (fun pl =>
              if pick_loses s rid pl.id then { pl with status := "eliminated" }
              else pl)
            rounds := s.rounds.map (fun r =>
              if r.id == rid then { r with status := "completed" } else r) }
          rid = round_fixtures s rid := rfl
      rw [hrf, if_pos hund]
      have hpicks : (s.picks.map (judge_pick (round_fixtures s rid) rid)).map
          (judge_pick (round_fixtures s rid) rid) =
          s.picks.map (judge_pick (round_fixtures s rid) rid) :=
        map_map_of_idem _ _ (judge_pick_idem (round_fixtures s rid) rid)
      have hrounds : ((s.rounds.map (fun r =>
          if r.id == rid then { r with status := "completed" } else r)).map
            (fun r => if r.id == rid then { r with status := "completed" }
              else r)) =
          s.rounds.map (fun r =>
            if r.id == rid then { r with status := "completed" } else r) := by
        apply map_map_of_idem
        intro r
        by_cases hr : r.id = rid <;> simp [hr]
      have hplayers : ∀ (pls : List Player), (pls.map (fun pl =>
          if pick_loses
            { s with
            picks := s.picks.map (judge_pick (round_fixtures s rid) rid)
            players := s.players.map (fun pl =>
              if pick_loses s rid pl.id then { pl with status := "eliminated" }
              else pl)
            rounds := s.rounds.map (fun r =>
              if r.id == rid then { r with status := "completed" } else r) }
            rid pl.id then { pl with status := "eliminated" } else pl)) = pls := by
        intro pls
        apply map_id_of_eq
        intro pl _
        rw [if_neg ?_]
        rw [pick_loses_after_judging _ rid pl.id s.picks rfl]
        exact fun hx => nomatch hx
      rw [hpicks, hrounds, hplayers]
    · rw [if_neg hund] at h
      simp at h

/-- Witness for C4: one successful processing of round 1 produces
`c4_state2`, and reprocessing `c4_state2` returns it unchanged. -/
theorem C4_process_round_idempotent_witness :
    admin_process_round c4_state2 1 = .processed c4_state2 :=
  C4_process_round_idempotent c4_state 1 c4_state2 (by decide)

theorem b64val_b64chr : ∀ v : Nat, v < 64 → b64val (b64chr v) = some v := by decide

theorem b64chr_ne_dot : ∀ v : Nat, v < 64 → b64chr v ≠ '.' := by decide

theorem b64e_ne_dot : ∀ (bs : List Nat), (∀ b ∈ bs, b < 256) →
    ∀ c ∈ b64e bs, c ≠ '.'
  | [], _, c, hc => by simp [b64e] at hc
  | [b0], h, c, hc => by
    have h0 : b0 < 256 := h b0 (by simp)
    simp only [b64e, List.mem_cons, List.not_mem_nil, or_false] at hc
    rcases hc with rfl | rfl
    · exact b64chr_ne_dot _ (by omega)
    · exact b64chr_ne_dot _ (by omega)
  | [b0, b1], h, c, hc => by
    have h0 : b0 < 256 := h b0 (by simp)
    have h1 : b1 < 256 := h b1 (by simp)
    simp only [b64e, List.mem_cons, List.not_mem_nil, or_false] at hc
    rcases hc with rfl | rfl | rfl
    · exact b64chr_ne_dot _ (by omega)
    · exact b64chr_ne_dot _ (by omega)
    · exact b64chr_ne_dot _ (by omega)
  | b0 :: b1 :: b2 :: rest, h, c, hc => by
    have h0 : b0 < 256 := h b0 (by simp)
    have h1 : b1 < 256 := h b1 (by simp)
    have h2 : b2 < 256 := h b2 (by simp)
    simp only [b64e, List.mem_cons] at hc
    rcases hc with rfl | rfl | rfl | rfl | hc
    · exact b64chr_ne_dot _ (by omega)
    · exact b64chr_ne_dot _ (by omega)
    · exact b64chr_ne_dot _ (by omega)
    · exact b64chr_ne_dot _ (by omega)
    · exact b64e_ne_dot rest (fun b hb => h b (by simp [hb])) c hc

theorem b64d_b64e : ∀ (bs : List Nat), (∀ b ∈ bs, b < 256) → b64d (b64e bs) = some bs
  | [], _ => rfl
  | [b0], h => by
    have h0 : b0 < 256 := h b0 (by simp)
    simp only [b64e, b64d]
    rw [b64val_b64chr _ (by omega), b64val_b64chr _ (by omega)]
    dsimp only
    simp only [Option.some.injEq, List.cons.injEq, and_true]
    omega
  | [b0, b1], h => by
    have h0 : b0 < 256 := h b0 (by simp)
    have h1 : b1 < 256 := h b1 (by simp)
    simp only [b64e, b64d]
    rw [b64val_b64chr _ (by omega), b64val_b64chr _ (by omega),
      b64val_b64chr _ (by omega)]
    dsimp only
    simp only [Option.some.injEq, List.cons.injEq, and_true]
    constructor <;> omega
  | b0 :: b1 :: b2 :: rest, h => by
    have h0 : b0 < 256 := h b0 (by simp)
    have h1 : b1 < 256 := h b1 (by simp)
    have h2 : b2 < 256 := h b2 (by simp)
    have ih := b64d_b64e rest (fun b hb => h b (by simp [hb]))
    simp only [b64e, b64d]
    rw [b64val_b64chr _ (by omega), b64val_b64chr _ (by omega),
      b64val_b64chr _ (by omega), b64val_b64chr _ (by omega), ih]
    dsimp only
    simp only [Option.some.injEq, List.cons.injEq, and_true]
    refine ⟨by omega, by omega, by omega⟩

theorem takeWhile_dropWhile_append {α : Type} (p : α → Bool) (l : List α)
    (y : α) (r : List α) (hl : ∀ x ∈ l, p x = true) (hy : p y = false) :
    (l ++ y :: r).takeWhile p = l ∧ (l ++ y :: r).dropWhile p = y :: r := by
  induction l with
  | nil => simp [List.takeWhile_cons, List.dropWhile_cons, hy]
  | cons x xs ih =>
    have hx : p x = true := hl x (by simp)
    have h2 := ih (fun a ha => hl a (by simp [ha]))
    simp [List.takeWhile_cons, List.dropWhile_cons, hx, h2.1, h2.2]

theorem digitsLE_eq_digits : ∀ (fuel n : Nat), n ≤ fuel →
    digitsLE fuel n = Nat.digits 10 n
  | 0, n, h => by
    have hz : n = 0 := Nat.le_zero.mp h
    subst hz
    simp [digitsLE]
  | fuel + 1, n, h => by
    by_cases hn : n = 0
    · subst hn
      simp [digitsLE]
    · unfold digitsLE
      rw [if_neg hn, Nat.digits_def' (by norm_num : 1 < 10) (Nat.pos_of_ne_zero hn)]
      have : n / 10 < n := Nat.div_lt_self (Nat.pos_of_ne_zero hn) (by norm_num)
      rw [digitsLE_eq_digits fuel (n / 10) (by omega)]

theorem natDigitsBytes_digit (n : Nat) :
    ∀ b ∈ natDigitsBytes n, isDigitByte b = true ∧ b < 256 := by
  intro b hb
  unfold natDigitsBytes at hb
  split at hb
  · simp only [List.mem_singleton] at hb
    subst hb
    exact ⟨by decide, by decide⟩
  · rw [digitsLE_eq_digits n n le_rfl] at hb
    simp only [List.mem_map, List.mem_reverse] at hb
    obtain ⟨d, hd, rfl⟩ := hb
    have hd10 : d < 10 := Nat.digits_lt_base (by norm_num) hd
    refine ⟨?_, by omega⟩
    simp only [isDigitByte, decide_eq_true_eq]
    omega

theorem parseNatBytes_natDigitsBytes (n : Nat) :
    parseNatBytes (natDigitsBytes n) = some n := by
  by_cases hn : n = 0
  · subst hn
    decide
  · unfold natDigitsBytes parseNatBytes
    rw [if_neg hn, digitsLE_eq_digits n n le_rfl]
    have hne : ((Nat.digits 10 n).reverse.map (fun d => d + 48)) ≠ [] := by
      simp [Nat.digits_ne_nil_iff_ne_zero.mpr hn]
    rw [if_neg hne]
    have hall : ((Nat.digits 10 n).reverse.map (fun d => d + 48)).all isDigitByte
        = true := by
      rw [List.all_eq_true]
      intro b hb
      simp only [List.mem_map, List.mem_reverse] at hb
      obtain ⟨d, hd, rfl⟩ := hb
      have hd10 : d < 10 := Nat.digits_lt_base (by norm_num) hd
      simp only [isDigitByte, decide_eq_true_eq]
      omega
    rw [if_pos hall]
    congr 1
    rw [List.map_map]
    rw [show ((fun b => b - 48) ∘ fun d => d + 48) = id from
      funext fun d => by simp]
    rw [List.map_id, List.reverse_reverse, Nat.ofDigits_digits]

theorem jsonPayloadBytes_lt (p r : Nat) : ∀ b ∈ jsonPayloadBytes p r, b < 256 := by
  intro b hb
  simp only [jsonPayloadBytes, List.mem_append, List.mem_cons,
    List.not_mem_nil, or_false] at hb
  rcases hb with ((((h | h | h | h | h) | h) | h | h | h | h | h) | h) | h
  all_goals first
    | omega
    | exact (natDigitsBytes_digit p b h).2
    | exact (natDigitsBytes_digit r b h).2

theorem parsePayload_json (p r : Nat) :
    parsePayload (jsonPayloadBytes p r) = some (p, r) := by
  have hp := fun b hb => (natDigitsBytes_digit p b hb).1
  have hr := fun b hb => (natDigitsBytes_digit r b hb).1
  unfold jsonPayloadBytes parsePayload
  simp only [List.cons_append, List.nil_append, List.append_assoc]
  obtain ⟨ht1, hd1⟩ := takeWhile_dropWhile_append isDigitByte
    (natDigitsBytes p) 44
    (34 :: 114 :: 34 :: 58 :: (natDigitsBytes r ++ [125])) hp (by decide)
  rw [ht1, hd1, parseNatBytes_natDigitsBytes p]
  dsimp only
  obtain ⟨ht2, hd2⟩ := takeWhile_dropWhile_append isDigitByte
    (natDigitsBytes r) 125 [] hr (by decide)
  rw [ht2, hd2, parseNatBytes_natDigitsBytes r]

theorem splitAtLastDot_append (a b : List Char) (hb : ∀ c ∈ b, c ≠ '.') :
    splitAtLastDot (a ++ '.' :: b) = some (a, b) := by
  unfold splitAtLastDot
  dsimp only
  rw [List.reverse_append, List.reverse_cons, List.append_assoc,
    List.singleton_append]
  have hbr : ∀ c ∈ b.reverse, (c != '.') = true := by
    intro c hc
    simpa using hb c (List.mem_reverse.mp hc)
  obtain ⟨ht, hd⟩ := takeWhile_dropWhile_append (fun c => c != '.')
    b.reverse '.' a.reverse hbr (by decide)
  rw [ht, hd]
  simp [List.reverse_reverse]

theorem be4_lt (n : Nat) : ∀ b ∈ be4 n, b < 256 := by
  intro b hb
  simp only [be4, List.mem_cons, List.not_mem_nil, or_false] at hb
  rcases hb with h | h | h | h <;> omega

theorem sha1_lt (msg : List Nat) : ∀ b ∈ sha1 msg, b < 256 := by
  intro b hb
  unfold sha1 sha1digest at hb
  simp only [List.mem_append] at hb
  rcases hb with (((h | h) | h) | h) | h <;> exact be4_lt _ _ h

theorem hmacSha1_lt (key msg : List Nat) : ∀ b ∈ hmacSha1 key msg, b < 256 := by
  intro b hb
  unfold hmacSha1 at hb
  exact sha1_lt _ b hb

/-- Claim C7 amended: the token codec round-trips — for every secret and
every participant and round id, `decode(encode(p, r)) = (p, r)` — but
flipping a single character of an encoded token does not always cause decode
to fail: flips of the final signature character that preserve the discarded
base64 trailing bits are accepted. -/
theorem C7_token_roundtrip (secret : List Nat) (p r : Nat) :
    parse_pick_token secret (make_pick_token secret p r) = some (p, r) := by
  unfold make_pick_token parse_pick_token
  dsimp only
  have hsig := hmacSha1_lt (deriveKey secret)
    ((b64e (jsonPayloadBytes p r)).map Char.toNat)
  rw [splitAtLastDot_append _ _ (b64e_ne_dot _ hsig)]
  dsimp only
  rw [b64d_b64e _ hsig]
  dsimp only
  rw [if_pos rfl, b64d_b64e _ (jsonPayloadBytes_lt p r)]
  exact parsePayload_json p r

/-- Witness for C7 at the concrete ids of the claim: `decode(encode(7, 3))
= (7, 3)` under the default secret. -/
theorem C7_token_roundtrip_witness :
    parse_pick_token default_secret (make_pick_token default_secret 7 3) =
      some (7, 3) :=
  C7_token_roundtrip default_secret 7 3

/-- Claim C7 is false on the code in its tamper-evidence part: under the
default secret, the token for (7, 3) ends in '4', and replacing only that
final character with '5' — a single-character flip — still decodes
successfully to (7, 3). The HMAC-SHA1 signature is 20 bytes = 27 base64
characters carrying 162 bits; the last 2 bits of the final character are
discarded by base64 decoding, so sibling characters verify equally. -/
theorem C7_single_flip_accepted :
    make_pick_token default_secret 7 3 =
      "eyJwIjo3LCJyIjozfQ.uBJEvEeSUh5XKUrwNRgdJcEEjY4"
  ∧ "eyJwIjo3LCJyIjozfQ.uBJEvEeSUh5XKUrwNRgdJcEEjY5".data =
      (make_pick_token default_secret 7 3).data.set 45 '5'
  ∧ "eyJwIjo3LCJyIjozfQ.uBJEvEeSUh5XKUrwNRgdJcEEjY5" ≠
      make_pick_token default_secret 7 3
  ∧ parse_pick_token default_secret
      "eyJwIjo3LCJyIjozfQ.uBJEvEeSUh5XKUrwNRgdJcEEjY5" = some (7, 3) :=
  ⟨by decide, by decide, by decide, by decide⟩

end LMS
